import Mathlib

set_option maxRecDepth 4000

/-!
Shallow embedding of the synchronization engine of the repository
(src/app/share_manager.py and src/app/update_manager.py).

Machine integers of the source (file sizes, timestamps) are modelled as Nat;
file contents are lists of bytes (Nat); the SMB transport, the local
filesystem and pattern matching are supplied through explicit environment
records, so that every code path of the translated functions is a pure,
executable Lean function.
-/

namespace NUM

/-! ### Version parsing (`ShareManager._compare_versions`, inner `parse_version`) -/

/-- ASCII digit test, the model of Python's `str.isdigit` on the characters
that occur in version strings. -/
def isDigitChar (c : Char) : Bool := c.isDigit

/-- Delimiters of `re.split(r'[.-]', version_str)`. -/
def isDelim (c : Char) : Bool := c == '.' || c == '-'

/-- `re.split(r'[.-]', s)`: split the character list at every '.' or '-',
keeping empty pieces, exactly as Python's `re.split` does. -/
def splitParts : List Char → List (List Char)
  | [] => [[]]
  | c :: cs =>
    match splitParts cs with
    | [] => [[c]]
    | p :: ps => if isDelim c then [] :: p :: ps else (c :: p) :: ps

/-- `int(part)` on a string of decimal digits. -/
def digitsToNat (cs : List Char) : Nat :=
  cs.foldl (fun n c => n * 10 + (c.toNat - '0'.toNat)) 0

/-- `parse_version` from `ShareManager._compare_versions`: split on '.' and
'-', keep only the parts that satisfy `isdigit()` (non-empty, all digits),
convert each to an integer. -/
def parse_version (s : String) : List Nat :=
  ((splitParts s.data).filter (fun p => !p.isEmpty && p.all isDigitChar)).map digitsToNat

/-- The component-comparison loop of `ShareManager._compare_versions`:
first differing component decides (`remote > local` ⇒ update needed), and
when the common prefix is exhausted the remote is newer iff it has more
components. Arguments are (local_parts, remote_parts). -/
def compareParts : List Nat → List Nat → Bool
  | l :: ls, r :: rs =>
    if r > l then true
    else if r < l then false
    else compareParts ls rs
  | ls, rs => decide (ls.length < rs.length)

/-- `ShareManager._compare_versions(local_version, remote_version)`.
The leading test models Python's `if not local_version or not remote_version:
return True` (falsy = empty string here).  The body never raises in this pure
model, so the `except: return True` branch of the source is unreachable. -/
def compare_versions (lv rv : String) : Bool :=
  if lv = "" ∨ rv = "" then true
  else compareParts (parse_version lv) (parse_version rv)

/-! ### Version extraction (`ShareManager._extract_version_from_filename`)

The source runs `re.search(r'(\d+(\.\d+)*(-\d+)*)', filename)`.  `re.search`
returns the match at the leftmost position where the pattern can match (the
pattern demands a leading digit), and each starred group is matched greedily;
no backtracking can occur because every group after the mandatory digit run
is optional.  On no match the source falls back to returning the whole
filename. -/

/-- Greedy matcher for `\d*(d\d+)*` where `d` is '.' or '-': consume digits;
at a `d` that is followed by a digit, consume it and continue; stop
otherwise.  Returns (matched text, rest).  Starting it on a digit yields the
greedy regex match of `\d+(d\d+)*` at that position; starting it on the rest
of a previous stage (which never begins with a digit) yields the greedy
match of `(d\d+)*`. -/
def delimRun (d : Char) : List Char → List Char × List Char
  | [] => ([], [])
  | c :: cs =>
    if isDigitChar c then
      let m := delimRun d cs
      (c :: m.1, m.2)
    else if c == d then
      match cs with
      | [] => ([], [c])
      | c2 :: cs2 =>
        if isDigitChar c2 then
          let m := delimRun d cs2
          (c :: c2 :: m.1, m.2)
        else ([], c :: c2 :: cs2)
    else ([], c :: cs)

/-- The greedy match of `\d+(\.\d+)*(-\d+)*` at a position whose head is a
digit: the dot stage consumes `\d+(\.\d+)*`, the hyphen stage then consumes
`(-\d+)*`. -/
def matchVersionAt (cs : List Char) : List Char :=
  let dm := delimRun '.' cs
  let hm := delimRun '-' dm.2
  dm.1 ++ hm.1

/-- `re.search` for the version pattern: try each position left to right; a
match can start exactly at a digit. -/
def searchVersion : List Char → Option (List Char)
  | [] => none
  | c :: cs => if isDigitChar c then some (matchVersionAt (c :: cs)) else searchVersion cs

/-- `ShareManager._extract_version_from_filename`: leftmost regex match, or
the whole filename when the pattern does not occur. -/
def extract_version (s : String) : String :=
  match searchVersion s.data with
  | some m => String.mk m
  | none => s

/-! ### `Path.with_suffix('.tmp')` (used by `ShareManager.download_file`)

`pathlib`'s suffix of a name is `name[i:]` for `i = name.rfind('.')` when
`0 < i < len(name) - 1`, and empty otherwise; `with_suffix` drops the old
suffix (if any) and appends the new one. -/

/-- Index of the last '.' in the character list (`str.rfind('.')`),
`none` when there is no dot. -/
def rfindDot : List Char → Option Nat
  | [] => none
  | c :: cs =>
    match rfindDot cs with
    | some i => some (i + 1)
    | none => if c == '.' then some 0 else none

/-- The characters of `".tmp"`. -/
def tmpSuffix : List Char := (".tmp" : String).data

/-- Position where the suffix starts: the last '.' when it is neither the
first nor the last character of the name, `none` otherwise. -/
def suffixIdx (name : List Char) : Option Nat :=
  match rfindDot name with
  | some i => if 0 < i ∧ i + 1 < name.length then some i else none
  | none => none

/-- `PurePath.suffix` of a file name. -/
def suffixOf (name : List Char) : List Char :=
  match suffixIdx name with
  | some i => name.drop i
  | none => []

/-- The name with its suffix removed (the whole name when there is none). -/
def stemOf (name : List Char) : List Char :=
  match suffixIdx name with
  | some i => name.take i
  | none => name

/-- `Path(name).with_suffix('.tmp')` on the final path component. -/
def with_suffix_tmp (name : List Char) : List Char := stemOf name ++ tmpSuffix

/-- The temporary path `local_path.with_suffix('.tmp')` computed by
`ShareManager.download_file`; paths are file names inside the one local
update directory. -/
def temp_path (dest : String) : String := String.mk (with_suffix_tmp dest.data)

/-! ### File transfer (`ShareManager.download_file`, `_verify_file`)

The local update directory is modelled as a map from file names to optional
byte contents.  The SMB transport's behaviour during one `download_file`
call is an explicit environment: the outcome of `ensure_connected`, of
`retrieveFile` (an `Except` whose error carries the bytes written to the
already-opened temp file before the stream broke — `open(.., 'wb')`
truncates first), of `getAttributes` (`none` models the call raising), and
of `shutil.move` (`false` models it raising; the move is same-directory,
hence same-filesystem and atomic, so a failed move has no effect). -/

def FS : Type := String → Option (List Nat)

/-- Point update of the directory: write, overwrite or delete one file. -/
def updateFS (fs : FS) (p : String) (v : Option (List Nat)) : FS :=
  fun q => if q = p then v else fs q

structure DownloadEnv where
  connectOk : Bool
  stream : Except (List Nat) (List Nat)
  remoteSize : Option Nat
  moveOk : Bool

/-- `ShareManager._verify_file`: the temp file must exist, `getAttributes`
must succeed, and the local size must equal the remote size.  The MD5 digest
the source computes afterwards is logged only and gates nothing, so it does
not appear in the result. -/
def verify_file (fs : FS) (tp : String) (remoteSize : Option Nat) : Bool :=
  match fs tp with
  | none => false
  | some content =>
    match remoteSize with
    | none => false
    | some n => content.length == n

/-- `ShareManager.download_file(filename, local_path)` restricted to its
effect on the local directory and its boolean result.  `dest` is the final
path; the temp path is `dest.with_suffix('.tmp')`.  On a stream exception
the `except` handler of the source only logs and returns `False`: the temp
file (holding the partial bytes) is NOT removed.  Only the
verification-failed branch unlinks the temp file.  On a move exception the
same `except` handler runs, again leaving the temp file behind. -/
def download_file (env : DownloadEnv) (fs : FS) (dest : String) : FS × Bool :=
  if env.connectOk = false then (fs, false)
  else
    match env.stream with
    | Except.error pbytes => (updateFS fs (temp_path dest) (some pbytes), false)
    | Except.ok content =>
      let fs1 := updateFS fs (temp_path dest) (some content)
      if verify_file fs1 (temp_path dest) env.remoteSize then
        if env.moveOk then
          (updateFS (updateFS fs1 (temp_path dest) none) dest (some content), true)
        else (fs1, false)
      else (updateFS fs1 (temp_path dest) none, false)

/-! ### Update checking (`ShareManager.check_for_updates` and helpers)

One check cycle sees a snapshot of the remote listing and of the local
directory.  Glob matching of the configured version-marker pattern (local,
via `pathlib.glob`) and its case-insensitive regex translation (remote) are
configuration-dependent predicates supplied by the environment. -/

structure RemoteEntry where
  filename : String
  isDirectory : Bool
  file_size : Nat
  create_time : Nat
  last_write_time : Nat
deriving DecidableEq

structure LocalFile where
  name : String
  size : Nat
  mtime : Nat
deriving DecidableEq

structure SyncEnv where
  connectOk : Bool
  remoteListing : List RemoteEntry
  localFiles : List LocalFile
  matchesLocal : String → Bool
  matchesRemote : String → Bool

/-- `ShareManager.list_updates`: empty on connection failure, otherwise the
listing without directories and without the '.' and '..' pseudo-entries. -/
def list_updates (env : SyncEnv) : List RemoteEntry :=
  if env.connectOk = false then []
  else env.remoteListing.filter
    (fun f => !(f.filename == ".") && !(f.filename == "..") && !f.isDirectory)

/-- Python's `max(xs, key=key)`: the first element attaining the maximal
key (later elements replace the current best only when strictly greater). -/
def maxByKey (key : α → Nat) (x : α) (xs : List α) : α :=
  xs.foldl (fun b y => if key y > key b then y else b) x

/-- `ShareManager._get_local_version`: among local files matching the
version-marker pattern, take the one with the latest mtime and extract its
version text; `none` when no file matches (or the directory is missing,
modelled as an empty listing). -/
def get_local_version (env : SyncEnv) : Option (String × String) :=
  match env.localFiles.filter (fun lf => env.matchesLocal lf.name) with
  | [] => none
  | f :: fs' =>
    let latest := maxByKey LocalFile.mtime f fs'
    some (latest.name, extract_version latest.name)

/-- `ShareManager._get_remote_version`: among the listed remote files
matching the pattern, take the one with the latest `last_modified` (the ISO
rendering of `last_write_time`; the ISO string order agrees with the numeric
timestamp order) and extract its version text. -/
def get_remote_version (env : SyncEnv) : Option (String × String) :=
  if env.connectOk = false then none
  else
    match (list_updates env).filter (fun f => env.matchesRemote f.filename) with
    | [] => none
    | f :: fs' =>
      let latest := maxByKey RemoteEntry.last_write_time f fs'
      some (latest.filename, extract_version latest.filename)

/-- `ShareManager._check_version_files`, returning
(need_update, local version, remote version).  No local marker ⇒
unconditionally `true` (bootstrap); no remote marker ⇒ `false`; otherwise
`_compare_versions` decides.  All callees catch their own exceptions, so
the `except: return True, {}` branch of the source is unreachable here. -/
def check_version_files (env : SyncEnv) : Bool × Option String × Option String :=
  match get_local_version env with
  | none => (true, none, none)
  | some (lf, lv) =>
    if lf = "" ∨ lv = "" then (true, none, none)
    else
      match get_remote_version env with
      | none => (false, some lv, none)
      | some (rf, rv) =>
        if rf = "" ∨ rv = "" then (false, some lv, none)
        else (compare_versions lv rv, some lv, some rv)

/-- `local_dir / filename` existence and stat, as a lookup in the local
directory snapshot. -/
def findLocal (env : SyncEnv) (fname : String) : Option LocalFile :=
  env.localFiles.find? (fun lf => lf.name == fname)

/-- `ShareManager._needs_update`: missing locally, or size mismatch, or the
remote `last_modified` strictly later than the local mtime. -/
def needs_update (rf : RemoteEntry) (lf : Option LocalFile) : Bool :=
  match lf with
  | none => true
  | some l =>
    if rf.file_size ≠ l.size then true
    else if rf.last_write_time > l.mtime then true
    else false

/-- `ShareManager.check_for_updates`: connection failure ⇒ `(False, [])`;
version gate closed ⇒ `(False, [])`; empty remote listing ⇒ `(False, [])`;
otherwise the candidates are the listed remote files that need an update,
and the flag says whether there is at least one. -/
def check_for_updates (env : SyncEnv) : Bool × List RemoteEntry :=
  if env.connectOk = false then (false, [])
  else if (check_version_files env).1 = false then (false, [])
  else if (list_updates env).isEmpty then (false, [])
  else
    (decide (0 < ((list_updates env).filter
        (fun rf => needs_update rf (findLocal env rf.filename))).length),
     (list_updates env).filter (fun rf => needs_update rf (findLocal env rf.filename)))

/-! ### The engine (`UpdateManager`) -/

inductive Status where
  | idle
  | checking
  | downloading
  | upToDate
  | downloaded
  | downloadFailed
  | error
  | updateAvailable
deriving DecidableEq

/-- The `version_info` dictionary held by `UpdateManager`. -/
structure VInfo where
  localV : Option String
  remoteV : Option String
  localF : Option String
  remoteF : Option String
deriving DecidableEq

/-- `UpdateManager._update_version_info`: refresh the snapshot from
`_get_local_version` / `_get_remote_version` (both catch their own
errors). -/
def versionInfoOf (env : SyncEnv) : VInfo :=
  { localV := (get_local_version env).map Prod.snd
    remoteV := (get_remote_version env).map Prod.snd
    localF := (get_local_version env).map Prod.fst
    remoteF := (get_remote_version env).map Prod.fst }

/-- The mutable fields of `UpdateManager` that one check cycle touches. -/
structure EngineState where
  updateStatus : Status
  lastCheckTime : Option Nat
  versionInfo : VInfo
deriving DecidableEq

/-- Environment of one `check_and_download_updates` run: the share
snapshot, the outcome of `_is_app_running` (which has no exception handler
of its own, hence the `Except`), the boolean result of
`ShareManager.download_updates` (which catches every exception), and the
version snapshot produced by the second `_update_version_info` call, taken
after the downloads have changed the local directory. -/
structure EngineEnv where
  sync : SyncEnv
  appRunning : Except Unit Bool
  downloadOk : Bool
  versionInfoAfter : VInfo

/-- `UpdateManager.check_and_download_updates`.  Note the absence of any
re-entrancy guard: the status and `last_check_time` are overwritten
unconditionally at entry, whatever the previous status was.  The flag-file
side effect of `_notify_app_about_update` does not touch engine state. -/
def check_and_download_updates (env : EngineEnv) (now : Nat) (s : EngineState) :
    EngineState × Bool :=
  let s1 : EngineState := { s with updateStatus := Status.checking, lastCheckTime := some now }
  match env.appRunning with
  | Except.error _ => ({ s1 with updateStatus := Status.error }, false)
  | Except.ok _ =>
    let cu := check_for_updates env.sync
    let s2 : EngineState := { s1 with versionInfo := versionInfoOf env.sync }
    if cu.1 = false then ({ s2 with updateStatus := Status.upToDate }, false)
    else if env.downloadOk then
      ({ s2 with updateStatus := Status.downloaded, versionInfo := env.versionInfoAfter }, true)
    else ({ s2 with updateStatus := Status.downloadFailed }, false)

/-- `UpdateManager.force_update_check`: when a check or download is in
progress it returns `False` and touches nothing; otherwise it spawns a
daemon thread (whose later effects are those of
`check_and_download_updates`) and immediately returns `True`, the engine
state still unchanged at that moment. -/
def force_update_check (s : EngineState) : EngineState × Bool :=
  if s.updateStatus = Status.checking ∨ s.updateStatus = Status.downloading then (s, false)
  else (s, true)

/-! ### Concrete inputs used by the counterexamples and witnesses -/

/-- An empty version snapshot, the `version_info` at engine start. -/
def vinfo0 : VInfo := { localV := none, remoteV := none, localF := none, remoteF := none }

/-- A share environment in which the connection cannot be established. -/
def syncDown : SyncEnv :=
  { connectOk := false, remoteListing := [], localFiles := []
    matchesLocal := fun _ => false, matchesRemote := fun _ => false }

/-- Engine environment for the C1 counterexample. -/
def envC1 : EngineEnv :=
  { sync := syncDown, appRunning := Except.ok false, downloadOk := false
    versionInfoAfter := vinfo0 }

/-- An engine state with a download in flight. -/
def stateC1 : EngineState :=
  { updateStatus := Status.downloading, lastCheckTime := some 5, versionInfo := vinfo0 }

/-- Engine environment for the C3 counterexample: the connection fails. -/
def envC3 : EngineEnv :=
  { sync := syncDown, appRunning := Except.ok false, downloadOk := true
    versionInfoAfter := vinfo0 }

/-- A directory holding one file named `foo.tmp` with content `[1, 2, 3]`. -/
def fsC2 : FS := fun p => if p = "foo.tmp" then some [1, 2, 3] else none

/-- A transfer whose stream breaks after writing the byte `9`. -/
def envC2 : DownloadEnv :=
  { connectOk := true, stream := Except.error [9], remoteSize := some 3, moveOk := true }

/-- An empty local directory. -/
def fsEmpty : FS := fun _ => none

/-- A transfer whose stream breaks after writing the byte `1`. -/
def envC4 : DownloadEnv :=
  { connectOk := true, stream := Except.error [1], remoteSize := some 1, moveOk := true }

/-- A local version marker whose name holds no digits. -/
def markerBeta : LocalFile := { name := "SIGES beta.txt", size := 5, mtime := 50 }

/-- A remote version marker with a numeric version. -/
def remoteSiges2 : RemoteEntry :=
  { filename := "SIGES 2.txt", isDirectory := false, file_size := 10
    create_time := 0, last_write_time := 100 }

/-- Share environment for the C6 counterexample: a non-numeric local marker
and a numeric remote marker. -/
def env6 : SyncEnv :=
  { connectOk := true, remoteListing := [remoteSiges2], localFiles := [markerBeta]
    matchesLocal := fun n => n == "SIGES beta.txt"
    matchesRemote := fun n => n == "SIGES 2.txt" }

/-- Share environment for the C6 witness: a local marker but no remote
files at all. -/
def env6b : SyncEnv :=
  { connectOk := true, remoteListing := [], localFiles := [markerBeta]
    matchesLocal := fun n => n == "SIGES beta.txt", matchesRemote := fun _ => false }

/-- A local file identical (size and age) to its remote counterpart. -/
def localData : LocalFile := { name := "data.bin", size := 100, mtime := 50 }

/-- The remote counterpart of `localData`. -/
def remoteData : RemoteEntry :=
  { filename := "data.bin", isDirectory := false, file_size := 100
    create_time := 0, last_write_time := 50 }

/-- Share environment for the C7 counterexample: no local version marker,
but the one remote file is already up to date locally. -/
def env7 : SyncEnv :=
  { connectOk := true, remoteListing := [remoteData], localFiles := [localData]
    matchesLocal := fun _ => false, matchesRemote := fun _ => false }

/-- Share environment for the C7 witness: empty local directory, one remote
file. -/
def env7b : SyncEnv :=
  { connectOk := true, remoteListing := [remoteData], localFiles := []
    matchesLocal := fun _ => false, matchesRemote := fun _ => false }

/-! ## Shared lemmas -/

/-- Comparing a version tuple with itself reports "not newer". -/
theorem compareParts_self : ∀ l : List Nat, compareParts l l = false := by
  intro l
  induction l with
  | nil => simp [compareParts]
  | cons a as ih => simp [compareParts, ih]

/-- An empty remote tuple is never newer. -/
theorem compareParts_nil_right : ∀ l : List Nat, compareParts l [] = false := by
  intro l
  cases l <;> simp [compareParts]

/-- The comparison loop of `_compare_versions` computes exactly the strict
lexicographic order on tuples, with a strict prefix counting as older. -/
theorem compareParts_iff_lex :
    ∀ l r : List Nat, compareParts l r = true ↔ List.Lex (· < ·) l r := by
  intro l
  induction l with
  | nil =>
    intro r
    cases r with
    | nil =>
      simp only [compareParts]
      constructor
      · intro h; simp at h
      · intro h; cases h
    | cons b bs =>
      simp only [compareParts]
      constructor
      · intro _; exact List.Lex.nil
      · intro _; simp
  | cons a as ih =>
    intro r
    cases r with
    | nil =>
      simp only [compareParts]
      constructor
      · intro h; simp at h
      · intro h; cases h
    | cons b bs =>
      by_cases hab : a < b
      · constructor
        · intro _; exact List.Lex.rel hab
        · intro _; simp [compareParts, hab]
      · by_cases hba : b < a
        · constructor
          · intro hcp
            exfalso
            simp [compareParts, hab, hba] at hcp
          · intro hlex
            cases hlex with
            | rel h => exact absurd h hab
            | cons h => exact absurd hba (lt_irrefl a)
        · have heq : a = b := le_antisymm (not_lt.mp hba) (not_lt.mp hab)
          subst heq
          constructor
          · intro hcp
            apply List.Lex.cons
            apply (ih bs).mp
            simpa [compareParts] using hcp
          · intro hlex
            cases hlex with
            | rel h => exact absurd h hab
            | cons h => simpa [compareParts] using (ih bs).mpr h

/-! ## C5 -/

/-- C5: the comparison used by the sync gate orders version tags
component-wise left to right, the first differing component deciding, with a
strict prefix counting as older (the longer tag is newer); in particular
`(1,2)` against `(1,2,0)` reports the second as newer, and
`_compare_versions(local, remote)` returns true exactly when the remote tag
is strictly greater under this order. -/
theorem c5_compare_orders_lexicographically :
    (∀ l r : List Nat, compareParts l r = true ↔ List.Lex (· < ·) l r) ∧
    compareParts [1, 2] [1, 2, 0] = true ∧
    (∀ lv rv : String, lv ≠ "" → rv ≠ "" →
      (compare_versions lv rv = true ↔
        List.Lex (· < ·) (parse_version lv) (parse_version rv))) := by
  refine ⟨compareParts_iff_lex, by decide, ?_⟩
  intro lv rv hlv hrv
  unfold compare_versions
  rw [if_neg (by tauto)]
  exact compareParts_iff_lex _ _

/-- C5 witness: `"1.2"` against `"1.2.0"` is reported as an update, through
the theorem's string-level equivalence. -/
theorem c5_witness : compare_versions "1.2" "1.2.0" = true := by
  have h := c5_compare_orders_lexicographically.2.2 "1.2" "1.2.0" (by decide) (by decide)
  exact h.mpr (by
    show List.Lex (· < ·) (parse_version "1.2") (parse_version "1.2.0")
    have h1 : parse_version "1.2" = [1, 2] := by decide
    have h2 : parse_version "1.2.0" = [1, 2, 0] := by decide
    rw [h1, h2]
    exact List.Lex.cons (List.Lex.cons List.Lex.nil))

/-! ## C10 -/

/-- C10: the parser inside `_compare_versions` splits on '.' and '-' and
silently discards every non-numeric component, so two version strings with
equal parses — such as "20.0.20-rc1" and "20.0.20-rc2" — compare as equal,
neither reported newer. -/
theorem c10_nonnumeric_components_discarded :
    (∀ a b : String, a ≠ "" → b ≠ "" → parse_version a = parse_version b →
      compare_versions a b = false ∧ compare_versions b a = false) ∧
    parse_version "20.0.20-rc1" = [20, 0, 20] ∧
    parse_version "20.0.20-rc2" = [20, 0, 20] := by
  refine ⟨?_, by decide, by decide⟩
  intro a b ha hb hparse
  constructor
  · unfold compare_versions
    rw [if_neg (by tauto), hparse, compareParts_self]
  · unfold compare_versions
    rw [if_neg (by tauto), hparse, compareParts_self]

/-- C10 witness: the release-candidate pair from the claim compares equal in
both directions. -/
theorem c10_witness :
    compare_versions "20.0.20-rc1" "20.0.20-rc2" = false ∧
    compare_versions "20.0.20-rc2" "20.0.20-rc1" = false := by
  exact c10_nonnumeric_components_discarded.1 "20.0.20-rc1" "20.0.20-rc2"
    (by decide) (by decide) (by decide)

/-! ## C8 -/

/-- C8 counterexample: in "a1b22.33.txt" the extractor returns "1", the
match at the leftmost digit, although the strictly longer dot-delimited
digit run "22.33" (a complete pattern match) occurs later in the filename —
so the extracted text is not the longest such run. -/
theorem c8_counterexample :
    extract_version "a1b22.33.txt" = "1" ∧
    matchVersionAt ("22.33" : String).data = ("22.33" : String).data ∧
    ("22.33" : String).data <:+: ("a1b22.33.txt" : String).data ∧
    ("1" : String).length < ("22.33" : String).length := by
  refine ⟨by decide, by decide, ?_, by decide⟩
  exact ⟨("a1b" : String).data, (".txt" : String).data, by decide⟩

/-- C8 amended: the version text is the greedy pattern match at the
LEFTMOST digit of the filename (`re.search` semantics), not the longest
dot/hyphen-delimited digit run anywhere in it; a filename without digits
falls back to the whole filename. -/
theorem c8_amended_leftmost_match :
    (∀ (pre rest : List Char) (c : Char),
       (∀ d ∈ pre, isDigitChar d = false) → isDigitChar c = true →
       searchVersion (pre ++ c :: rest) = some (matchVersionAt (c :: rest))) ∧
    (∀ s : List Char, (∀ d ∈ s, isDigitChar d = false) → searchVersion s = none) ∧
    extract_version "SIGES 20.0.20-24.txt" = "20.0.20-24" := by
  refine ⟨?_, ?_, by decide⟩
  · intro pre rest c
    induction pre with
    | nil =>
      intro _ hc
      simp [searchVersion, hc]
    | cons d ds ih =>
      intro hpre hc
      have hd : isDigitChar d = false := hpre d (by simp)
      rw [List.cons_append]
      simp only [searchVersion, hd, Bool.false_eq_true, if_false]
      exact ih (fun x hx => hpre x (by simp [hx])) hc
  · intro s hs
    induction s with
    | nil => rfl
    | cons d ds ih =>
      have hd : isDigitChar d = false := hs d (by simp)
      simp only [searchVersion, hd, Bool.false_eq_true, if_false]
      exact ih (fun x hx => hs x (by simp [hx]))

/-- C8 witness: the leftmost-match law applied to "ab12.3x" (matching from
the '1'), and the no-digit fallback applied to "xyz". -/
theorem c8_witness :
    searchVersion (("ab" : String).data ++ '1' :: ("2.3x" : String).data) =
      some (matchVersionAt ('1' :: ("2.3x" : String).data)) ∧
    searchVersion ("xyz" : String).data = none := by
  constructor
  · exact c8_amended_leftmost_match.1 ("ab" : String).data ("2.3x" : String).data '1'
      (by decide) (by decide)
  · exact c8_amended_leftmost_match.2.1 ("xyz" : String).data (by decide)

/-! ## C9 -/

/-- `updateFS` read back at the written path. -/
theorem updateFS_same (fs : FS) (p : String) (v : Option (List Nat)) :
    updateFS fs p v p = v := by
  simp [updateFS]

/-- `updateFS` read back elsewhere. -/
theorem updateFS_other (fs : FS) (p q : String) (v : Option (List Nat)) (h : q ≠ p) :
    updateFS fs p v q = fs q := by
  simp [updateFS, h]

/-- Replacing a `.tmp` suffix by `.tmp` leaves the name unchanged. -/
theorem with_suffix_tmp_eq_self (l : List Char) (h : suffixOf l = tmpSuffix) :
    with_suffix_tmp l = l := by
  cases hsi : suffixIdx l with
  | none =>
    simp only [suffixOf, hsi] at h
    exact absurd h (by decide)
  | some i =>
    simp only [suffixOf, hsi] at h
    simp only [with_suffix_tmp, stemOf, hsi]
    rw [← h]
    exact List.take_append_drop i l

/-- A destination whose pathlib suffix is `.tmp` is its own temporary
path. -/
theorem temp_path_eq_self (n : String) (h : suffixOf n.data = tmpSuffix) :
    temp_path n = n := by
  show String.mk (with_suffix_tmp n.data) = n
  rw [with_suffix_tmp_eq_self n.data h]

/-- A name with a non-empty suffix has a strictly shorter stem. -/
theorem stemOf_length_lt (l : List Char) (h : suffixOf l ≠ []) :
    (stemOf l).length < l.length := by
  cases hsi : suffixIdx l with
  | none =>
    simp only [suffixOf, hsi] at h
    exact absurd rfl h
  | some i =>
    simp only [suffixOf, hsi] at h
    simp only [stemOf, hsi]
    have hi : i < l.length := by
      by_contra hge
      push_neg at hge
      rw [List.drop_eq_nil_of_le hge] at h
      exact h rfl
    simp [List.length_take]
    omega

/-- C9: `download_file` derives the temporary path with
`Path.with_suffix('.tmp')`: the destination's final (pathlib) extension is
replaced, not appended to; names sharing a stem share the temporary path;
a destination whose extension is already `.tmp` is its own temporary path,
and for such a destination the stream is written directly in place (here a
broken stream leaves its partial bytes at the destination itself). -/
theorem c9_temp_path_replaces_final_extension :
    (∀ n1 n2 : String, stemOf n1.data = stemOf n2.data → temp_path n1 = temp_path n2) ∧
    (∀ n : String, suffixOf n.data = tmpSuffix → temp_path n = n) ∧
    (∀ n : String, suffixOf n.data ≠ [] →
       temp_path n ≠ String.mk (n.data ++ tmpSuffix)) ∧
    (∀ (env : DownloadEnv) (fs : FS) (dest : String) (p : List Nat),
       env.connectOk = true → suffixOf dest.data = tmpSuffix →
       env.stream = Except.error p →
       (download_file env fs dest).1 dest = some p) := by
  refine ⟨?_, temp_path_eq_self, ?_, ?_⟩
  · intro n1 n2 h
    show String.mk (with_suffix_tmp n1.data) = String.mk (with_suffix_tmp n2.data)
    unfold with_suffix_tmp
    rw [h]
  · intro n h heq
    have hdata := congrArg String.data heq
    have hlen := congrArg List.length hdata
    have hstem := stemOf_length_lt n.data h
    simp only [temp_path, with_suffix_tmp, List.length_append] at hlen
    omega
  · intro env fs dest p hconn hsuf hstream
    have htp : temp_path dest = dest := temp_path_eq_self dest hsuf
    unfold download_file
    rw [hconn, hstream]
    simp only [Bool.true_eq_false, if_false]
    rw [htp]
    exact updateFS_same fs dest (some p)

/-- C9 witness: "a.exe" and "a.dll" share the temp path; "foo.tmp" is its
own temp path; the temp path of "a.bin" is not "a.bin.tmp"; a broken stream
towards "foo.tmp" lands its partial byte at "foo.tmp" itself. -/
theorem c9_witness :
    temp_path "a.exe" = temp_path "a.dll" ∧
    temp_path "foo.tmp" = "foo.tmp" ∧
    temp_path "a.bin" ≠ String.mk (("a.bin" : String).data ++ tmpSuffix) ∧
    (download_file ⟨true, Except.error [7], some 1, true⟩ fsEmpty "foo.tmp").1 "foo.tmp" =
      some [7] := by
  refine ⟨?_, ?_, ?_, ?_⟩
  · exact c9_temp_path_replaces_final_extension.1 "a.exe" "a.dll" (by decide)
  · exact c9_temp_path_replaces_final_extension.2.1 "foo.tmp" (by decide)
  · exact c9_temp_path_replaces_final_extension.2.2.1 "a.bin" (by decide)
  · exact c9_temp_path_replaces_final_extension.2.2.2 _ fsEmpty "foo.tmp" [7]
      rfl (by decide) rfl

/-! ## C2 and C4: transfer failure behaviour -/

/-- When the temp path differs from the destination, any failing
`download_file` run leaves the destination entry untouched. -/
theorem download_dest_unchanged (env : DownloadEnv) (fs : FS) (dest : String)
    (hne : temp_path dest ≠ dest) (hfail : (download_file env fs dest).2 = false) :
    (download_file env fs dest).1 dest = fs dest := by
  have hd : dest ≠ temp_path dest := fun h => hne h.symm
  obtain ⟨co, st, rs, mv⟩ := env
  cases co with
  | false => simp [download_file]
  | true =>
    cases st with
    | error p =>
      show updateFS fs (temp_path dest) (some p) dest = fs dest
      exact updateFS_other _ _ _ _ hd
    | ok c =>
      cases hv : verify_file (updateFS fs (temp_path dest) (some c)) (temp_path dest) rs with
      | false => simp [download_file, hv, updateFS, hd]
      | true =>
        cases mv with
        | true => simp [download_file, hv] at hfail
        | false => simp [download_file, hv, updateFS, hd]

/-- A successful `download_file` run has moved the streamed content over the
destination. -/
theorem download_dest_success (env : DownloadEnv) (fs : FS) (dest : String) (c : List Nat)
    (hok : env.stream = Except.ok c) (hs : (download_file env fs dest).2 = true) :
    (download_file env fs dest).1 dest = some c := by
  obtain ⟨co, st, rs, mv⟩ := env
  simp only at hok
  subst hok
  cases co with
  | false => simp [download_file] at hs
  | true =>
    cases hv : verify_file (updateFS fs (temp_path dest) (some c)) (temp_path dest) rs with
    | false => simp [download_file, hv] at hs
    | true =>
      cases mv with
      | false => simp [download_file, hv] at hs
      | true => simp [download_file, hv, updateFS]

/-- C2 counterexample: for the pre-existing destination "foo.tmp" (whose
pathlib suffix is already ".tmp", so the computed temp path coincides with
the destination), a transfer that fails mid-stream overwrites the
destination's prior content `[1, 2, 3]` with the partial bytes `[9]`. -/
theorem c2_counterexample :
    temp_path "foo.tmp" = "foo.tmp" ∧
    fsC2 "foo.tmp" = some [1, 2, 3] ∧
    (download_file envC2 fsC2 "foo.tmp").2 = false ∧
    (download_file envC2 fsC2 "foo.tmp").1 "foo.tmp" = some [9] ∧
    (some [9] : Option (List Nat)) ≠ some [1, 2, 3] := by
  refine ⟨by decide, by decide, by decide, by decide, by decide⟩

/-- C2 amended: for every destination whose computed temp path differs from
the destination itself (equivalently, whose pathlib suffix is not ".tmp"),
a transfer that fails at any point leaves the destination entry exactly as
before, and the destination is only changed — to the streamed content — by
the move performed after verification passes. -/
theorem c2_amended_destination_untouched :
    ∀ (env : DownloadEnv) (fs : FS) (dest : String), temp_path dest ≠ dest →
      ((download_file env fs dest).2 = false →
         (download_file env fs dest).1 dest = fs dest) ∧
      (∀ c, env.stream = Except.ok c → (download_file env fs dest).2 = true →
         (download_file env fs dest).1 dest = some c) := by
  intro env fs dest hne
  exact ⟨download_dest_unchanged env fs dest hne,
    fun c hok hs => download_dest_success env fs dest c hok hs⟩

/-- C2 witness: a mid-stream failure towards "x.bin" leaves the (absent)
destination absent. -/
theorem c2_witness :
    temp_path "x.bin" ≠ "x.bin" ∧
    (download_file ⟨true, Except.error [5], some 9, true⟩ fsEmpty "x.bin").2 = false ∧
    (download_file ⟨true, Except.error [5], some 9, true⟩ fsEmpty "x.bin").1 "x.bin" = none := by
  refine ⟨by decide, by decide, ?_⟩
  exact (c2_amended_destination_untouched ⟨true, Except.error [5], some 9, true⟩ fsEmpty
    "x.bin" (by decide)).1 (by decide)

/-- C4 counterexample: a transfer of "a.bin" whose stream breaks returns a
failure but does NOT delete the temporary file — "a.tmp" still holds the
partial byte `[1]` afterwards, contradicting "deletes the temporary file if
it exists" for connection drops. -/
theorem c4_counterexample :
    (download_file envC4 fsEmpty "a.bin").2 = false ∧
    temp_path "a.bin" = "a.tmp" ∧
    (download_file envC4 fsEmpty "a.bin").1 "a.tmp" = some [1] := by
  refine ⟨by decide, by decide, by decide⟩

/-- C4 amended: on every failing transfer the result is a failure and the
existing destination (when distinct from the temp path) is untouched, but
the temp file is deleted only in the verification-failure branch: a stream
error leaves the partial temp file behind, and a move failure leaves the
fully verified temp file behind. -/
theorem c4_amended_temp_deleted_only_on_verification_failure :
    ∀ (env : DownloadEnv) (fs : FS) (dest : String),
      env.connectOk = true → temp_path dest ≠ dest →
      ((∀ p, env.stream = Except.error p →
          (download_file env fs dest).1 (temp_path dest) = some p ∧
          (download_file env fs dest).2 = false) ∧
       (∀ c, env.stream = Except.ok c →
          verify_file (updateFS fs (temp_path dest) (some c)) (temp_path dest)
            env.remoteSize = false →
          (download_file env fs dest).1 (temp_path dest) = none ∧
          (download_file env fs dest).2 = false) ∧
       (∀ c, env.stream = Except.ok c →
          verify_file (updateFS fs (temp_path dest) (some c)) (temp_path dest)
            env.remoteSize = true →
          env.moveOk = false →
          (download_file env fs dest).1 (temp_path dest) = some c ∧
          (download_file env fs dest).2 = false) ∧
       ((download_file env fs dest).2 = false →
          (download_file env fs dest).1 dest = fs dest)) := by
  intro env fs dest hconn hne
  obtain ⟨co, st, rs, mv⟩ := env
  simp only at hconn
  subst hconn
  refine ⟨?_, ?_, ?_, download_dest_unchanged _ fs dest hne⟩
  · intro p hp
    simp only at hp
    subst hp
    exact ⟨by simp [download_file, updateFS], rfl⟩
  · intro c hc hv
    simp only at hc
    subst hc
    simp only at hv
    constructor
    · simp [download_file, hv, updateFS]
    · simp [download_file, hv]
  · intro c hc hv hmv
    simp only at hc hmv
    subst hc
    subst hmv
    simp only at hv
    constructor
    · simp [download_file, hv, updateFS]
    · simp [download_file, hv]

/-- C4 witness: the three failure modes at concrete inputs — a broken
stream towards "c.bin" leaves `[3]` in "c.tmp"; a size mismatch (2 bytes
streamed, remote reports 5) deletes "b.tmp"; a failing move leaves the
verified bytes in "d.tmp"; in each case the result is failure and the
destination stays absent. -/
theorem c4_witness :
    ((download_file ⟨true, Except.error [3], some 5, true⟩ fsEmpty "c.bin").1 "c.tmp"
        = some [3] ∧
      (download_file ⟨true, Except.error [3], some 5, true⟩ fsEmpty "c.bin").2 = false) ∧
    ((download_file ⟨true, Except.ok [1, 2], some 5, true⟩ fsEmpty "b.bin").1 "b.tmp"
        = none ∧
      (download_file ⟨true, Except.ok [1, 2], some 5, true⟩ fsEmpty "b.bin").2 = false) ∧
    ((download_file ⟨true, Except.ok [1, 2], some 2, false⟩ fsEmpty "d.bin").1 "d.tmp"
        = some [1, 2] ∧
      (download_file ⟨true, Except.ok [1, 2], some 2, false⟩ fsEmpty "d.bin").2 = false) := by
  refine ⟨?_, ?_, ?_⟩
  · have h := (c4_amended_temp_deleted_only_on_verification_failure
      ⟨true, Except.error [3], some 5, true⟩ fsEmpty "c.bin" rfl (by decide)).1 [3] rfl
    have ht : temp_path "c.bin" = "c.tmp" := by decide
    rw [ht] at h
    exact h
  · have h := ((c4_amended_temp_deleted_only_on_verification_failure
      ⟨true, Except.ok [1, 2], some 5, true⟩ fsEmpty "b.bin" rfl (by decide)).2.1) [1, 2]
      rfl (by decide)
    have ht : temp_path "b.bin" = "b.tmp" := by decide
    rw [ht] at h
    exact h
  · have h := ((c4_amended_temp_deleted_only_on_verification_failure
      ⟨true, Except.ok [1, 2], some 2, false⟩ fsEmpty "d.bin" rfl (by decide)).2.2.1) [1, 2]
      rfl (by decide) rfl
    have ht : temp_path "d.bin" = "d.tmp" := by decide
    rw [ht] at h
    exact h

/-! ## C1 and C3: engine state machine -/

/-- C1 counterexample: calling `check_and_download_updates` while the
status is `Downloading` (with `lastCheckTime = some 5`) does not return an
untouched state: the status and `lastCheckTime` are overwritten (here to
`some 6`), because the function itself contains no re-entrancy guard. -/
theorem c1_counterexample :
    stateC1.updateStatus = Status.downloading ∧
    stateC1.lastCheckTime = some 5 ∧
    ((check_and_download_updates envC1 6 stateC1).1).lastCheckTime = some 6 ∧
    (check_and_download_updates envC1 6 stateC1).1 ≠ stateC1 := by
  refine ⟨rfl, rfl, by decide, by decide⟩

/-- C1 amended: the "already in progress" guard lives in
`force_update_check`, which returns `False` and leaves the state (status,
`lastCheckTime` and version snapshot) untouched when the status is
`Checking` or `Downloading`; `check_and_download_updates` itself has no
guard and unconditionally overwrites `lastCheckTime` (and the status) on
every call, whatever the previous status was. -/
theorem c1_amended_guard_only_in_force_update_check :
    (∀ s : EngineState,
       s.updateStatus = Status.checking ∨ s.updateStatus = Status.downloading →
       force_update_check s = (s, false)) ∧
    (∀ (env : EngineEnv) (now : Nat) (s : EngineState),
       ((check_and_download_updates env now s).1).lastCheckTime = some now) := by
  constructor
  · intro s h
    unfold force_update_check
    rw [if_pos h]
  · intro env now s
    obtain ⟨sy, ar, dl, va⟩ := env
    cases ar with
    | error e => rfl
    | ok b =>
      by_cases h1 : (check_for_updates sy).1 = false
      · simp [check_and_download_updates, h1]
      · by_cases h2 : dl <;> simp [check_and_download_updates, h1, h2]

/-- C1 witness: the guard at a concrete in-flight state, and the overwrite
of `lastCheckTime` at a concrete call. -/
theorem c1_witness :
    force_update_check stateC1 = (stateC1, false) ∧
    ((check_and_download_updates envC1 9
        { updateStatus := Status.idle, lastCheckTime := none,
          versionInfo := vinfo0 }).1).lastCheckTime = some 9 := by
  constructor
  · exact c1_amended_guard_only_in_force_update_check.1 stateC1 (Or.inr rfl)
  · exact c1_amended_guard_only_in_force_update_check.2 envC1 9 _

/-- C3 counterexample: in a cycle whose connection fails
(`syncDown.connectOk = false`), `check_for_updates` returns `(False, [])`
and the engine ends the cycle with status `UpToDate` — not `Error`. -/
theorem c3_counterexample :
    syncDown.connectOk = false ∧
    check_for_updates syncDown = (false, []) ∧
    ((check_and_download_updates envC3 0
        { updateStatus := Status.idle, lastCheckTime := none,
          versionInfo := vinfo0 }).1).updateStatus = Status.upToDate ∧
    Status.upToDate ≠ Status.error := by
  refine ⟨rfl, by decide, by decide, by decide⟩

/-- C3 amended: when the remote session cannot be (re)connected,
`check_for_updates` swallows the failure into `(False, [])`, so the cycle
ends with status `UpToDate` and result `False`; status `Error` is reserved
for an exception escaping inside the engine's own try block (modelled here
by `_is_app_running` raising). -/
theorem c3_amended_connection_failure_reports_up_to_date :
    ∀ (env : EngineEnv) (now : Nat) (s : EngineState) (b : Bool),
      env.sync.connectOk = false → env.appRunning = Except.ok b →
      check_for_updates env.sync = (false, []) ∧
      ((check_and_download_updates env now s).1).updateStatus = Status.upToDate ∧
      (check_and_download_updates env now s).2 = false := by
  intro env now s b hc ha
  have hcfu : check_for_updates env.sync = (false, []) := by
    unfold check_for_updates
    rw [if_pos hc]
  refine ⟨hcfu, ?_, ?_⟩
  · obtain ⟨sy, ar, dl, va⟩ := env
    simp only at ha hcfu
    subst ha
    simp [check_and_download_updates, hcfu]
  · obtain ⟨sy, ar, dl, va⟩ := env
    simp only at ha hcfu
    subst ha
    simp [check_and_download_updates, hcfu]

/-- C3 witness: the amended behaviour at a concrete failing-connection
environment. -/
theorem c3_witness :
    check_for_updates envC3.sync = (false, []) ∧
    ((check_and_download_updates envC3 3
        { updateStatus := Status.idle, lastCheckTime := none,
          versionInfo := vinfo0 }).1).updateStatus = Status.upToDate := by
  have h := c3_amended_connection_failure_reports_up_to_date envC3 3
    { updateStatus := Status.idle, lastCheckTime := none, versionInfo := vinfo0 }
    false rfl rfl
  exact ⟨h.1, h.2.1⟩

/-! ## C6 and C7: the version gate and the bootstrap case -/

/-- C6 counterexample: the local marker "SIGES beta.txt" is non-numeric —
extraction falls back to the filename, which parses to the empty tuple —
yet against the numeric remote marker "SIGES 2.txt" the gate reports a
newer version and a sync IS triggered, contradicting "unknown versions
never trigger a sync" (the marker exists, so this is not the documented
no-local-marker bootstrap). -/
theorem c6_counterexample :
    get_local_version env6 = some ("SIGES beta.txt", "SIGES beta.txt") ∧
    parse_version "SIGES beta.txt" = [] ∧
    (get_remote_version env6).map Prod.snd = some "2" ∧
    (check_version_files env6).1 = true ∧
    check_for_updates env6 = (true, [remoteSiges2]) := by
  refine ⟨by decide, by decide, by decide, by decide, by decide⟩

/-- C6 amended: equal parsed versions never trigger a sync, a missing or
empty-parsing remote version never triggers a sync, and the gate is closed
when no remote marker exists; but when the LOCAL version parses to the
empty tuple while the remote parses to a non-empty one, the remote counts
as newer and a sync is triggered — the unknown-local case, unlike the
unknown-remote case, does start a sync. -/
theorem c6_amended_unknown_local_triggers :
    (∀ lv rv : String, lv ≠ "" → rv ≠ "" →
       ((parse_version lv = parse_version rv → compare_versions lv rv = false) ∧
        (parse_version rv = [] → compare_versions lv rv = false) ∧
        (parse_version lv = [] → parse_version rv ≠ [] →
          compare_versions lv rv = true))) ∧
    (∀ (env : SyncEnv) (lf lv : String),
       get_local_version env = some (lf, lv) → lf ≠ "" → lv ≠ "" →
       get_remote_version env = none →
       check_version_files env = (false, some lv, none)) := by
  constructor
  · intro lv rv hlv hrv
    refine ⟨?_, ?_, ?_⟩
    · intro hparse
      unfold compare_versions
      rw [if_neg (by tauto), hparse, compareParts_self]
    · intro hrnil
      unfold compare_versions
      rw [if_neg (by tauto), hrnil, compareParts_nil_right]
    · intro hlnil hrne
      unfold compare_versions
      rw [if_neg (by tauto), hlnil]
      cases hr : parse_version rv with
      | nil => exact absurd hr hrne
      | cons h t => simp [compareParts]
  · intro env lf lv hloc hlf hlv hrem
    simp only [check_version_files, hloc]
    rw [if_neg (by tauto), hrem]

/-- C6 witness: equal versions "7.7"/"7.7" do not trigger; an empty-parsing
remote "beta" does not trigger; an empty-parsing local "beta" against "3.1"
does trigger; and with a local marker but no remote files at all the gate is
closed. -/
theorem c6_witness :
    compare_versions "7.7" "7.7" = false ∧
    compare_versions "3.1" "beta" = false ∧
    compare_versions "beta" "3.1" = true ∧
    check_version_files env6b = (false, some "SIGES beta.txt", none) := by
  refine ⟨?_, ?_, ?_, ?_⟩
  · exact (c6_amended_unknown_local_triggers.1 "7.7" "7.7" (by decide) (by decide)).1 rfl
  · exact (c6_amended_unknown_local_triggers.1 "3.1" "beta" (by decide) (by decide)).2.1
      (by decide)
  · exact (c6_amended_unknown_local_triggers.1 "beta" "3.1" (by decide) (by decide)).2.2
      (by decide) (by decide)
  · exact c6_amended_unknown_local_triggers.2 env6b "SIGES beta.txt" "SIGES beta.txt"
      (by decide) (by decide) (by decide) (by decide)

/-- C7 counterexample: the local directory holds no version marker
(`get_local_version` is `none`), the remote listing is the single file
"data.bin" — but because the local copy of "data.bin" matches in size and is
not older, `check_for_updates` returns `(false, [])` instead of the full
remote file set. -/
theorem c7_counterexample :
    get_local_version env7 = none ∧
    list_updates env7 = [remoteData] ∧
    check_for_updates env7 = (false, []) := by
  refine ⟨by decide, by decide, by decide⟩

/-- C7 amended: with no local version marker the gate passes
unconditionally (update treated as needed regardless of any remote marker),
but the returned candidates are the remote non-directory entries (without
'.' and '..') that individually need an update — missing locally, size
mismatch, or remote strictly newer; the full remote set is returned exactly
when every listed remote file also passes that per-file test, e.g. when no
remote file has a local counterpart. -/
theorem c7_amended_bootstrap_still_filters_candidates :
    ∀ env : SyncEnv, env.connectOk = true → get_local_version env = none →
      (check_version_files env).1 = true ∧
      (check_for_updates env).2 =
        (list_updates env).filter (fun rf => needs_update rf (findLocal env rf.filename)) ∧
      ((∀ rf ∈ list_updates env, findLocal env rf.filename = none) →
        (check_for_updates env).2 = list_updates env) := by
  intro env hc hl
  have hgate : (check_version_files env).1 = true := by
    simp only [check_version_files, hl]
  have h2 : (check_for_updates env).2 =
      (list_updates env).filter (fun rf => needs_update rf (findLocal env rf.filename)) := by
    unfold check_for_updates
    rw [if_neg (by simp [hc]), if_neg (by simp [hgate])]
    by_cases he : (list_updates env).isEmpty
    · rw [if_pos he]
      have hnil : list_updates env = [] := by
        rwa [List.isEmpty_iff] at he
      rw [hnil]
      rfl
    · rw [if_neg he]
  refine ⟨hgate, h2, ?_⟩
  intro hall
  rw [h2]
  apply List.filter_eq_self.mpr
  intro rf hrf
  rw [hall rf hrf]
  rfl

/-- C7 witness: with an empty local directory the gate passes and the full
remote set comes back as candidates. -/
theorem c7_witness :
    (check_version_files env7b).1 = true ∧
    (check_for_updates env7b).2 = list_updates env7b := by
  have h := c7_amended_bootstrap_still_filters_candidates env7b rfl (by decide)
  exact ⟨h.1, h.2.2 (by decide)⟩

end NUM
